import Mathlib

/-!
# Verification of `confluence2md`

A shallow embedding, in Lean 4, of the attachment-resolution, download and
orchestration logic of the `confluence2md` repository, together with proofs
of the behavioural properties claimed for it.

The authoritative module is `src/confluence2md.py` (the robust variant,
shipped under the package directory `src/`); per the design notes, its
matching behaviour is the one specified.  Python dictionaries become
association lists with last-assignment-wins lookup, Python's string helpers
(`urllib.parse.unquote`, `str.replace`, `os.path.basename`,
`urllib.parse.urlparse(...).path`, `urllib.parse.urljoin`) are modelled for
the ASCII data this program manipulates, network I/O becomes explicit
oracle functions returning `Except`, and the filesystem becomes an explicit
list of existing paths threaded through the functions.
-/

set_option autoImplicit false

/-! ## String utilities modelling the Python standard library

All string operations are implemented by structural (or fuel-based)
recursion over the character list, so that every definition in this file
evaluates inside the kernel (`rfl`/`decide`) on concrete inputs. -/

/-- Is the first character list a prefix of the second? -/
def isPrefixCL : List Char → List Char → Bool
  | [], _ => true
  | _ :: _, [] => false
  | a :: as, b :: bs => a == b && isPrefixCL as bs

/-- Does `pat` occur as a contiguous sublist of the second argument? -/
def containsCL (pat : List Char) : List Char → Bool
  | [] => isPrefixCL pat []
  | c :: rest => isPrefixCL pat (c :: rest) || containsCL pat rest

/-- Fuel-based worker for `splitOnStr`; the fuel is the input length, which
always suffices because every step consumes at least one character. -/
def splitOnCL (sep : List Char) : Nat → List Char → List (List Char)
  | _, [] => [[]]
  | 0, s => [s]
  | n + 1, c :: rest =>
    if !sep.isEmpty && isPrefixCL sep (c :: rest) then
      [] :: splitOnCL sep n (List.drop (sep.length - 1) rest)
    else
      match splitOnCL sep n rest with
      | [] => [[c]]
      | seg :: segs => (c :: seg) :: segs

/-- Models Python's `s.split(sep)` for a non-empty separator (and Lean's
`String.splitOn`, which returns `[s]` on the empty separator). -/
def splitOnStr (s sep : String) : List String :=
  if sep = "" then [s]
  else (splitOnCL sep.data s.data.length s.data).map String.mk

/-- Join a list of character lists with a separator. -/
def intercalateCL (sep : List Char) : List (List Char) → List Char
  | [] => []
  | [x] => x
  | x :: xs => x ++ sep ++ intercalateCL sep xs

/-- Models `sep.join(parts)` / `String.intercalate`. -/
def intercalateStr (sep : String) (l : List String) : String :=
  String.mk (intercalateCL sep.data (l.map String.data))

/-- Fuel-based worker for `pyReplace`: replace non-overlapping occurrences
of `pat` left to right. -/
def replaceCL (pat rep : List Char) : Nat → List Char → List Char
  | _, [] => []
  | 0, s => s
  | n + 1, c :: rest =>
    if !pat.isEmpty && isPrefixCL pat (c :: rest) then
      rep ++ replaceCL pat rep n (List.drop (pat.length - 1) rest)
    else c :: replaceCL pat rep n rest

/-- Models Python's `s.replace(pat, rep)` for a non-empty pattern (the only
way this program uses it): all non-overlapping occurrences, left to
right. -/
def pyReplace (s pat rep : String) : String :=
  String.mk (replaceCL pat.data rep.data s.data.length s.data)

/-- Models `s.startswith(p)` / `String.startsWith`. -/
def startsWithStr (s p : String) : Bool :=
  isPrefixCL p.data s.data

/-- Models `s.endswith(p)` / `String.endsWith`. -/
def endsWithStr (s p : String) : Bool :=
  isPrefixCL p.data.reverse s.data.reverse

/-- Models `s.lower()` on ASCII data. -/
def lowerStr (s : String) : String :=
  String.mk (s.data.map Char.toLower)

/-- The characters Python's `str.strip()` removes. -/
def pySpace (c : Char) : Bool :=
  c == ' ' || c == '\t' || c == '\n' || c == '\r' ||
    c == Char.ofNat 11 || c == Char.ofNat 12

/-- Models Python's `s.strip()`. -/
def pyStrip (s : String) : String :=
  String.mk (((s.data.dropWhile pySpace).reverse.dropWhile pySpace).reverse)

/-- Models `s.rstrip("/")`. -/
def pyRstripSlash (s : String) : String :=
  String.mk ((s.data.reverse.dropWhile (· == '/')).reverse)

/-- Drop the first `n` characters. -/
def dropStr (s : String) (n : Nat) : String :=
  String.mk (s.data.drop n)

/-- Hexadecimal digit value, as used by `urllib.parse.unquote`. -/
def hexVal? (c : Char) : Option Nat :=
  if '0' ≤ c ∧ c ≤ '9' then some (c.toNat - '0'.toNat)
  else if 'a' ≤ c ∧ c ≤ 'f' then some (c.toNat - 'a'.toNat + 10)
  else if 'A' ≤ c ∧ c ≤ 'F' then some (c.toNat - 'A'.toNat + 10)
  else none

/-- Character-list worker for `unquote`: decode `%XX` escapes, leaving
malformed escapes untouched.  Models `urllib.parse.unquote` on ASCII data
(multi-byte UTF-8 escape sequences are outside the data this program
handles). -/
def unquoteChars : List Char → List Char
  | '%' :: a :: b :: rest =>
    match hexVal? a, hexVal? b with
    | some ha, some hb => Char.ofNat (16 * ha + hb) :: unquoteChars rest
    | _, _ => '%' :: unquoteChars (a :: b :: rest)
  | c :: rest => c :: unquoteChars rest
  | [] => []

/-- Models `urllib.parse.unquote` (percent-decoding) on ASCII data. -/
def unquote (s : String) : String :=
  String.mk (unquoteChars s.data)

/-- Models the Python substring test `pat in s` for a non-empty `pat`
(the only way this program uses it). -/
def containsSubstr (s pat : String) : Bool :=
  containsCL pat.data s.data

/-- Models Python truthiness for an optional string: `None` and `""` are
falsy, everything else yields the string itself. -/
def truthy? : Option String → Option String
  | some s => if s = "" then none else some s
  | none => none

/-- Models Python's `a or b` on two optional strings (first truthy value,
else the second operand). -/
def pyOr (a b : Option String) : Option String :=
  match a with
  | some s => if s = "" then b else some s
  | none => b

/-- Drop the authority (netloc) part of a URL remainder: the path starts at
the first `/`.  Helper for `urlPathOf`. -/
def stripNetloc (s : String) : String :=
  let parts := splitOnStr s "/"
  if parts.length ≤ 1 then "" else "/" ++ intercalateStr "/" parts.tail

/-- Models `urllib.parse.urlparse(url).path` for the URL shapes this
program receives: strip the fragment, then the query, then the scheme and
authority (path parameters introduced by `;` are not part of those
shapes). -/
def urlPathOf (url : String) : String :=
  let s := (splitOnStr url "#").headD url
  let s := (splitOnStr s "?").headD s
  if startsWithStr s "http://" then stripNetloc (dropStr s 7)
  else if startsWithStr s "https://" then stripNetloc (dropStr s 8)
  else if startsWithStr s "//" then stripNetloc (dropStr s 2)
  else s

/-- Models `os.path.basename`: the part after the last `/`. -/
def basenameOf (p : String) : String :=
  (splitOnStr p "/").getLastD ""

/-- Filename extracted from a reference URL:
`os.path.basename(urlparse(url).path)`. -/
def urlFilename (url : String) : String :=
  basenameOf (urlPathOf url)

/-- Models `urllib.parse.urljoin(base, link)` for a root-relative `link`
(starting with `/`): scheme and authority of `base`, then `link`. -/
def urljoinAbs (base link : String) : String :=
  match splitOnStr base "://" with
  | scheme :: rest :: _ =>
    scheme ++ "://" ++ (splitOnStr rest "/").headD "" ++ link
  | _ => link

/-- Models `urllib.parse.urljoin(base, link)` for the link shapes this
program receives: an absolute `http(s)` URL is returned unchanged, a
root-relative link is resolved against the scheme and authority of `base`,
and any other relative link replaces the final path segment of `base`. -/
def urljoinModel (base link : String) : String :=
  if startsWithStr link "http://" || startsWithStr link "https://" then link
  else if startsWithStr link "/" then urljoinAbs base link
  else if link = "" then base
  else intercalateStr "/" ((splitOnStr base "/").dropLast ++ [link])

/-! ## Site URL normalization (`_wiki_base`, `_api_v1_base`) -/

/-- Embeds `_wiki_base`: strip trailing slashes from the configured site URL
and ensure a single `/wiki` suffix. -/
def wikiBase (confluenceUrl : String) : String :=
  let base := pyRstripSlash confluenceUrl
  if endsWithStr base "/wiki" then base else base ++ "/wiki"

/-- Embeds `_api_v1_base`. -/
def apiV1Base (confluenceUrl : String) : String :=
  wikiBase confluenceUrl ++ "/rest/api"

/-! ## Attachment records and the Attachment Map -/

/-- An attachment record as consumed by this program: the `id` and `title`
fields and the `download`/`downloadUrl` entries of `_links`.  `none` models
an absent field. -/
structure Att where
  id? : Option String
  title? : Option String
  linkDownload? : Option String
  linkDownloadUrl? : Option String
deriving DecidableEq, Repr

/-- The Attachment Map: a Python dict modelled as an association list where
the most recent assignment shadows earlier ones. -/
abbrev AttMap := List (String × Att)

/-- Dict assignment `m[k] = v`: the new binding shadows any earlier one. -/
def mapInsert (m : AttMap) (k : String) (v : Att) : AttMap :=
  (k, v) :: m

/-- Dict lookup `m.get(k)` / `k in m`: the most recent binding wins. -/
def mapLookup (m : AttMap) (k : String) : Option Att :=
  (m.find? (fun p => p.1 == k)).map (·.2)

/-- Embeds the map-building loop of `rewrite_and_download_attachments`
(lines 259–270): for each listed attachment with a truthy title, bind the
title, its URL-decoded form, the spaces-to-underscores form and the
spaces-to-`%20` form to the record. -/
def buildAttMap (atts : List Att) : AttMap :=
  atts.foldl
    (fun m att =>
      match att.title? with
      | some t =>
        if t = "" then m
        else
          mapInsert
            (mapInsert (mapInsert (mapInsert m t att) (unquote t) att)
              (pyReplace t " " "_") att)
            (pyReplace t " " "%20") att
      | none => m)
    []

/-- Embeds the `filename_variants` list built for every reference
(lines 285–292): raw, URL-decoded, `%20`→space, `_`→space, space→`_`,
space→`%20`, in that order. -/
def filenameVariants (filename : String) : List String :=
  [filename,
   unquote filename,
   pyReplace filename "%20" " ",
   pyReplace filename "_" " ",
   pyReplace filename " " "_",
   pyReplace filename " " "%20"]

/-- Embeds the variant-lookup loop (lines 294–299): the first variant that
is a key of the Attachment Map wins. -/
def resolveAtt (m : AttMap) (filename : String) : Option Att :=
  (filenameVariants filename).findSome? (mapLookup m)

/-- The variant list in the order the specification text states it:
raw, URL-decoded, space→`_`, `_`→space, space→`%20`, `%20`→space.
This definition follows the spec's words, for comparison with
`filenameVariants`, which embeds the source. -/
def specFilenameVariants (filename : String) : List String :=
  [filename,
   unquote filename,
   pyReplace filename " " "_",
   pyReplace filename "_" " ",
   pyReplace filename " " "%20",
   pyReplace filename "%20" " "]

/-- Variant lookup in the specification's stated order; follows the spec's
words, for comparison with `resolveAtt`. -/
def resolveAttSpec (m : AttMap) (filename : String) : Option Att :=
  (specFilenameVariants filename).findSome? (mapLookup m)

/-! ## The Attachment Downloader (`download_attachment`, lines 152–244) -/

/-- The part of an HTTP response the downloader inspects: the declared
`content-type` header (in full, the downloader lowercases it itself). -/
structure Response where
  contentType : String
deriving DecidableEq, Repr

/-- The downloader's environment: the configured site URL and the network,
as an oracle from URL to either a successful (2xx) response or the error a
failed `_get` call raises. -/
structure DlEnv where
  baseUrl : String
  get : String → Except String Response

/-- The filesystem, as the list of paths that currently exist. -/
abbrev FsState := List String

/-- Embeds the download-link derivation (lines 153–169): `_links.download`,
else `_links.downloadUrl`, else a URL constructed from the page id and
title (or from the attachment id alone).  Presence in `_links` is a key
test, so a present-but-empty link is returned as `some ""` and rejected by
the caller's truthiness guard. -/
def deriveDownloadLink (att : Att) (pageId? : Option String) : Option String :=
  match att.linkDownload? with
  | some l => some l
  | none =>
    match att.linkDownloadUrl? with
    | some l => some l
    | none =>
      match truthy? att.id?, truthy? pageId? with
      | some _, some pid =>
        some ("/download/attachments/" ++ pid ++ "/" ++ att.title?.getD "")
      | some aid, none => some ("/download/attachments/" ++ aid)
      | none, _ => none

/-- Embeds lines 177–180: a root-relative download link is resolved against
the configured site URL, anything else is used as-is. -/
def resolveDownloadUrl (base dlink : String) : String :=
  if startsWithStr dlink "/" then urljoinAbs base dlink else dlink

/-- The character set the filename sanitizer keeps (line 194). -/
def safeChar (c : Char) : Bool :=
  c.isAlphanum || c = '-' || c = '_' || c = '.' || c = ' '

/-- Embeds the filename derivation and sanitization (lines 182–197): the
record's title, else the URL-decoded final URL path segment, else a
synthetic `attachment_<id>` name; unsafe characters become `_`, the result
is stripped, and an empty or `"."` result falls back to the synthetic
name. -/
def derivedFilename (att : Att) (url : String) : String :=
  let raw :=
    match truthy? att.title? with
    | some t => t
    | none =>
      let fname := urlFilename url
      if fname ≠ "" then unquote fname
      else "attachment_" ++ att.id?.getD "unknown"
  let sanitized :=
    pyStrip (String.mk (raw.data.map (fun c => if safeChar c then c else '_')))
  if sanitized = "" ∨ sanitized = "." then "attachment_" ++ att.id?.getD "unknown"
  else sanitized

/-- Embeds the alternative-URL loop of the `except` branch (lines 230–243):
try each URL in order; a non-HTML success writes the file and wins, an HTML
response or a network error moves on.  Returns the outcome, the updated
filesystem and the URLs requested. -/
def tryAltUrls (env : DlEnv) (outPath : String) (fs : FsState) :
    List String → Option String × FsState × List String
  | [] => (none, fs, [])
  | u :: rest =>
    match env.get u with
    | .ok r =>
      if containsSubstr (lowerStr r.contentType) "text/html" then
        let t := tryAltUrls env outPath fs rest
        (t.1, t.2.1, u :: t.2.2)
      else (some outPath, outPath :: fs, [u])
    | .error _ =>
      let t := tryAltUrls env outPath fs rest
      (t.1, t.2.1, u :: t.2.2)

/-- Embeds `download_attachment` (lines 152–244).  The value is
`Except.ok (outcome, filesystem, requested URLs)`; an `Except.error` value
would correspond to an exception escaping the Python function, and the
theorem `c7_downloader_total` shows none does, mirroring the function's
`try`/`except` structure.  File writes are modelled as always succeeding
(a failing write raises inside the `try` and is caught like a network
error, which no claim exercises). -/
def downloadAttachment (env : DlEnv) (att : Att) (outDir : String)
    (pageId? : Option String) (fs : FsState) :
    Except String (Option String × FsState × List String) :=
  match truthy? (deriveDownloadLink att pageId?) with
  | none => .ok (none, fs, [])
  | some dlink =>
    let url := resolveDownloadUrl env.baseUrl dlink
    let filename := derivedFilename att url
    let outPath := outDir ++ "/" ++ filename
    if fs.contains outPath then .ok (some outPath, fs, [])
    else
      match env.get url with
      | .ok r =>
        if containsSubstr (lowerStr r.contentType) "text/html" then
          .ok (none, fs, [url])
        else .ok (some outPath, outPath :: fs, [url])
      | .error _ =>
        match truthy? pageId?, truthy? att.id? with
        | some pid, some aid =>
          let t := tryAltUrls env outPath fs
              [env.baseUrl ++ "/download/attachments/" ++ pid ++ "/" ++ filename,
               env.baseUrl ++ "/download/attachments/" ++ aid ++ "/" ++ filename,
               wikiBase env.baseUrl ++ "/download/attachments/" ++ pid ++ "/" ++ filename]
          .ok (t.1, t.2.1, url :: t.2.2)
        | _, _ => .ok (none, fs, [url])

/-! ## The Attachment Resolver & Rewriter
(`rewrite_and_download_attachments`, lines 247–372)

The parsed markup is modelled as a list of nodes: the structured inline
attachment tags (tag name ending in `attachment`), `img` tags, `a` tags,
and everything else (text and other markup, which the rewriter never
touches).  The downloader invocation `download_attachment(att,
attachments_dir, page_id)` is abstracted as a state-threading function
`dl : Att → σ → Option String × σ`, and `PathRel` as a function
`pathRel : String → String → String`; the claims hold for every such
instantiation. -/

/-- A markup node as seen by the rewriter. -/
inductive Node where
  | ri (riFilename : Option String) (filenameAttr : Option String)
  | img (src : String)
  | anchor (href : String)
  | text (s : String)
deriving DecidableEq, Repr

/-- Embeds lines 278–280: `attrs.get("ri:filename") or attrs.get("filename")`,
with the falsy result skipped. -/
def effectiveFilename (riF fA : Option String) : Option String :=
  truthy? (pyOr riF fA)

/-- Embeds the structured-inline-reference pass (lines 277–313): resolve
the filename against the map; on a hit download and replace the tag with an
`img` pointing at the relative local path, else (failed download or no
match) replace it with the `[Attachment: <filename>]` placeholder; a tag
with no truthy filename is skipped. -/
def processRi {σ : Type} (m : AttMap) (dl : Att → σ → Option String × σ)
    (pathRel : String → String → String) (baseDir : String) :
    Node → σ → Node × σ
  | Node.ri riF fA, st =>
    match effectiveFilename riF fA with
    | none => (Node.ri riF fA, st)
    | some f =>
      match resolveAtt m f with
      | some att =>
        let r := dl att st
        match r.1 with
        | some saved => (Node.img (pathRel saved baseDir), r.2)
        | none => (Node.text ("[Attachment: " ++ f ++ "]"), r.2)
      | none => (Node.text ("[Attachment: " ++ f ++ "]"), st)
  | n, st => (n, st)

/-- Embeds the image pass (lines 316–342): an `img` whose `src` contains
the `/download/attachments/` segment has its filename extracted and
resolved; only a successful download rewrites `src`, every other case
leaves the tag unchanged. -/
def processImg {σ : Type} (m : AttMap) (dl : Att → σ → Option String × σ)
    (pathRel : String → String → String) (baseDir : String) :
    Node → σ → Node × σ
  | Node.img src, st =>
    if containsSubstr src "/download/attachments/" then
      let filename := urlFilename src
      if filename ≠ "" then
        match resolveAtt m filename with
        | some att =>
          let r := dl att st
          match r.1 with
          | some saved => (Node.img (pathRel saved baseDir), r.2)
          | none => (Node.img src, r.2)
        | none => (Node.img src, st)
      else (Node.img src, st)
    else (Node.img src, st)
  | n, st => (n, st)

/-- Embeds the link pass (lines 344–370), identical in shape to the image
pass but for `a`/`href`. -/
def processAnchor {σ : Type} (m : AttMap) (dl : Att → σ → Option String × σ)
    (pathRel : String → String → String) (baseDir : String) :
    Node → σ → Node × σ
  | Node.anchor href, st =>
    if containsSubstr href "/download/attachments/" then
      let filename := urlFilename href
      if filename ≠ "" then
        match resolveAtt m filename with
        | some att =>
          let r := dl att st
          match r.1 with
          | some saved => (Node.anchor (pathRel saved baseDir), r.2)
          | none => (Node.anchor href, r.2)
        | none => (Node.anchor href, st)
      else (Node.anchor href, st)
    else (Node.anchor href, st)
  | n, st => (n, st)

/-- State-threading map over the node list, the shape of each
`for ... in soup.find_all(...)` pass. -/
def mapState {σ : Type} (f : Node → σ → Node × σ) :
    List Node → σ → List Node × σ
  | [], st => ([], st)
  | n :: ns, st =>
    let r := f n st
    let rs := mapState f ns r.2
    (r.1 :: rs.1, rs.2)

/-- The three rewriter passes, run in source order over the document, for a
given Attachment Map. -/
def rewriteWithMap {σ : Type} (m : AttMap) (dl : Att → σ → Option String × σ)
    (pathRel : String → String → String) (baseDir : String)
    (nodes : List Node) (st : σ) : List Node × σ :=
  let p1 := mapState (processRi m dl pathRel baseDir) nodes st
  let p2 := mapState (processImg m dl pathRel baseDir) p1.1 p1.2
  mapState (processAnchor m dl pathRel baseDir) p2.1 p2.2

/-- Embeds the `try`/`except` around the attachment listing (lines
250–274): a successful listing feeds `buildAttMap`, a listing error
degrades to the empty map. -/
def attMapOfListing : Except String (List Att) → AttMap
  | .ok atts => buildAttMap atts
  | .error _ => []

/-- Embeds `rewrite_and_download_attachments` (lines 247–372): build the
Attachment Map from the listing outcome (empty on a listing error), then
run the structured-reference, image and link passes. -/
def rewriteAndDownloadAttachments {σ : Type}
    (dl : Att → σ → Option String × σ) (pathRel : String → String → String)
    (baseDir : String) (listing : Except String (List Att))
    (nodes : List Node) (st : σ) : List Node × σ :=
  rewriteWithMap (attMapOfListing listing) dl pathRel baseDir nodes st

/-! ## The Attachment Lister (`list_attachments_for_page`, lines 127–149)

The remote service is modelled by the sequence of responses it will give,
consumed one per request; each response carries a page of results and the
optional `_links.next` link. -/

/-- One attachment-listing response: a page of results and the optional
next link. -/
structure ListingResponse where
  results : List Att
  next? : Option String
deriving DecidableEq, Repr

/-- Embeds the `while True` pagination loop: take the next response,
accumulate its results, stop when its next link is falsy (`if not
next_link: break`, line 142 — absent or empty), otherwise follow the link
resolved against the configured site URL.  Returns the accumulated records
and the URLs requested, in order.  (The first request carries
`limit`/`expand` query parameters and the follow-ups none; the parameters
do not affect the accumulation and are not modelled.) -/
def listAttachmentsLoop (base : String) (url : String) :
    List ListingResponse → List Att × List String
  | [] => ([], [url])
  | r :: rs =>
    match truthy? r.next? with
    | none => (r.results, [url])
    | some n =>
      let t := listAttachmentsLoop base (urljoinModel base n) rs
      (r.results ++ t.1, url :: t.2)

/-- The first listing URL, from `_api_v1_base` (line 130). -/
def attachmentListUrl (confluenceUrl pageId : String) : String :=
  apiV1Base confluenceUrl ++ "/content/" ++ pageId ++ "/child/attachment"

/-- Embeds `list_attachments_for_page`: run the pagination loop starting at
the page's attachment-listing endpoint. -/
def listAttachmentsForPage (confluenceUrl pageId : String)
    (resps : List ListingResponse) : List Att × List String :=
  listAttachmentsLoop confluenceUrl (attachmentListUrl confluenceUrl pageId) resps

/-! ## The Orchestrator fetch phase (`fetch_and_save`, lines 404–435)

The modelled extent is the session guard through the body-markup
extraction: the later steps (attachments directory, rewriter, renderer,
file write, lines 437–466) are the components embedded above plus plain
file output.  The output-directory creation (lines 417–418) is a
filesystem effect between the guard and the first network call and issues
no request. -/

/-- A page object as consumed by the fetch phase: `id`, `title` and
`body.storage.value`.  `none` models an absent field. -/
structure PageData where
  id? : Option String
  title? : Option String
  storage? : Option String
deriving DecidableEq, Repr

/-- A REST request: URL and query parameters. -/
structure Request where
  url : String
  params : List (String × String)
deriving DecidableEq, Repr

/-- The errors the fetch phase can fail with.  `credentialsNotInitialized`
models the `RuntimeError("Credentials not initialized. Call
init_session(...) first ...")` raised by the session guard — the
configuration-class error of the specification's taxonomy;
`titleSpaceRequired` and `pageNotFound` model the other two
`RuntimeError`s; `noStorageValue` models the empty-content error; `http`
models a propagated `_get` failure. -/
inductive FetchErr where
  | credentialsNotInitialized
  | titleSpaceRequired
  | pageNotFound (title space : String)
  | noStorageValue
  | http (msg : String)
deriving DecidableEq, Repr

/-- The orchestrator's environment: whether `init_session` has run, the
configured site URL, and the two network endpoints the fetch phase uses,
as oracles from request to response. -/
structure OrchEnv where
  sessionInitialized : Bool
  confluenceUrl : String
  pageById : Request → Except String PageData
  search : Request → Except String (List PageData)

/-- The request issued by `get_page_by_id` (lines 89–95): the content
endpoint for the stripped page id, expanding body, version and ancestry. -/
def getPageByIdReq (confluenceUrl pid : String) : Request :=
  ⟨apiV1Base confluenceUrl ++ "/content/" ++ pyStrip pid,
   [("expand", "body.storage,version,ancestors")]⟩

/-- The request issued by `find_page_by_title` (lines 112–121): the content
search endpoint constrained to exact title and space, with the same
expansion and `limit=1`. -/
def findPageByTitleReq (confluenceUrl title space : String) : Request :=
  ⟨apiV1Base confluenceUrl ++ "/content",
   [("title", title), ("spaceKey", space),
    ("expand", "body.storage,version,ancestors"), ("limit", "1")]⟩

/-- The `expand` query parameter of a request. -/
def expandParam (r : Request) : Option String :=
  (r.params.find? (fun p => p.1 == "expand")).map (·.2)

/-- Embeds lines 429–435: read the page's id, title (with the
`page-<id>` default) and `body.storage.value`, failing when the body
markup is absent or empty. -/
def extractPhase (page : PageData) :
    Except FetchErr (PageData × String × String) :=
  let title := page.title?.getD ("page-" ++ page.id?.getD "None")
  let storage := page.storage?.getD ""
  if storage = "" then .error .noStorageValue
  else .ok (page, title, storage)

/-- Embeds the fetch phase of `fetch_and_save` (lines 404–435): the
session guard, then the page fetch by id or by title+space search (the
search result is used directly, with `RuntimeError` when it is empty),
then the body-markup extraction.  Returns the phase outcome together with
the requests issued. -/
def fetchAndSaveFetchPhase (env : OrchEnv)
    (pageId? titleArg? space? : Option String) :
    Except FetchErr (PageData × String × String) × List Request :=
  if env.sessionInitialized = false then (.error .credentialsNotInitialized, [])
  else
    match truthy? pageId? with
    | some pid =>
      let req := getPageByIdReq env.confluenceUrl pid
      match env.pageById req with
      | .error e => (.error (.http e), [req])
      | .ok page => (extractPhase page, [req])
    | none =>
      match truthy? titleArg?, truthy? space? with
      | some t, some sp =>
        let req := findPageByTitleReq env.confluenceUrl t sp
        match env.search req with
        | .error e => (.error (.http e), [req])
        | .ok results =>
          match results.head? with
          | none => (.error (.pageNotFound t sp), [req])
          | some page => (extractPhase page, [req])
      | _, _ => (.error .titleSpaceRequired, [])

/-! ## Helper lemmas about the rewriter passes -/

theorem mapState_append {σ : Type} (f : Node → σ → Node × σ)
    (l1 l2 : List Node) (st : σ) :
    mapState f (l1 ++ l2) st =
      ((mapState f l1 st).1 ++ (mapState f l2 (mapState f l1 st).2).1,
       (mapState f l2 (mapState f l1 st).2).2) := by
  induction l1 generalizing st with
  | nil => simp [mapState]
  | cons n ns ih => simp [mapState, ih]

theorem mapState_length {σ : Type} (f : Node → σ → Node × σ)
    (l : List Node) (st : σ) :
    (mapState f l st).1.length = l.length := by
  induction l generalizing st with
  | nil => rfl
  | cons n ns ih => simp [mapState, ih]

theorem mapState_mid {σ : Type} (f : Node → σ → Node × σ) (node nOut : Node)
    (h : ∀ s : σ, (f node s).1 = nOut) (pre suf : List Node) (st : σ) :
    mapState f (pre ++ node :: suf) st =
      ((mapState f pre st).1 ++
        nOut :: (mapState f suf (f node (mapState f pre st).2).2).1,
       (mapState f suf (f node (mapState f pre st).2).2).2) := by
  rw [mapState_append]
  simp [mapState, h]

theorem mapState_skip {σ : Type} (f : Node → σ → Node × σ) (node : Node)
    (h : ∀ s : σ, f node s = (node, s)) (pre suf : List Node) (st : σ) :
    mapState f (pre ++ node :: suf) st =
      ((mapState f pre st).1 ++
        node :: (mapState f suf (mapState f pre st).2).1,
       (mapState f suf (mapState f pre st).2).2) := by
  rw [mapState_mid f node node (fun s => by rw [h s])]
  rw [h]

/-- If the three passes successively turn `node` into `n1`, `n2` and `n3`
(each independently of the state), then a document containing `node`
rewrites to a document with `n3` at the same position. -/
theorem rewriteWithMap_decomp {σ : Type} (m : AttMap)
    (dl : Att → σ → Option String × σ) (pathRel : String → String → String)
    (baseDir : String) (node n1 n2 n3 : Node)
    (h1 : ∀ s : σ, (processRi m dl pathRel baseDir node s).1 = n1)
    (h2 : ∀ s : σ, (processImg m dl pathRel baseDir n1 s).1 = n2)
    (h3 : ∀ s : σ, (processAnchor m dl pathRel baseDir n2 s).1 = n3)
    (pre suf : List Node) (st : σ) :
    ∃ outPre outSuf st',
      rewriteWithMap m dl pathRel baseDir (pre ++ node :: suf) st =
        (outPre ++ n3 :: outSuf, st') ∧
      outPre.length = pre.length := by
  unfold rewriteWithMap
  dsimp only
  rw [mapState_mid _ _ _ h1]
  dsimp only
  rw [mapState_mid _ _ _ h2]
  dsimp only
  rw [mapState_mid _ _ _ h3]
  exact ⟨_, _, _, rfl, by simp [mapState_length]⟩

/-- A node that all three passes leave completely untouched contributes
nothing: the rewrite with the node is the rewrite without it, with the node
re-inserted at its position and the same final state. -/
theorem rewriteWithMap_skip {σ : Type} (m : AttMap)
    (dl : Att → σ → Option String × σ) (pathRel : String → String → String)
    (baseDir : String) (node : Node)
    (h1 : ∀ s : σ, processRi m dl pathRel baseDir node s = (node, s))
    (h2 : ∀ s : σ, processImg m dl pathRel baseDir node s = (node, s))
    (h3 : ∀ s : σ, processAnchor m dl pathRel baseDir node s = (node, s))
    (pre suf : List Node) (st : σ) :
    ∃ outPre outSuf st',
      rewriteWithMap m dl pathRel baseDir (pre ++ node :: suf) st =
        (outPre ++ node :: outSuf, st') ∧
      rewriteWithMap m dl pathRel baseDir (pre ++ suf) st =
        (outPre ++ outSuf, st') ∧
      outPre.length = pre.length := by
  unfold rewriteWithMap
  dsimp only
  rw [mapState_skip _ _ h1]
  dsimp only
  rw [mapState_skip _ _ h2]
  dsimp only
  rw [mapState_skip _ _ h3]
  rw [mapState_append]
  dsimp only
  rw [mapState_append]
  dsimp only
  rw [mapState_append]
  exact ⟨_, _, _, rfl, rfl, by simp [mapState_length]⟩

theorem resolveAtt_nil (f : String) : resolveAtt [] f = none := rfl

theorem processImg_text {σ : Type} (m : AttMap)
    (dl : Att → σ → Option String × σ) (pathRel : String → String → String)
    (baseDir : String) (s : String) (st : σ) :
    processImg m dl pathRel baseDir (Node.text s) st = (Node.text s, st) := rfl

theorem processAnchor_text {σ : Type} (m : AttMap)
    (dl : Att → σ → Option String × σ) (pathRel : String → String → String)
    (baseDir : String) (s : String) (st : σ) :
    processAnchor m dl pathRel baseDir (Node.text s) st = (Node.text s, st) := rfl

theorem processImg_empty_map {σ : Type}
    (dl : Att → σ → Option String × σ) (pathRel : String → String → String)
    (baseDir : String) (src : String) (st : σ) :
    processImg [] dl pathRel baseDir (Node.img src) st = (Node.img src, st) := by
  simp only [processImg, resolveAtt_nil]
  split <;> simp

theorem processAnchor_empty_map {σ : Type}
    (dl : Att → σ → Option String × σ) (pathRel : String → String → String)
    (baseDir : String) (href : String) (st : σ) :
    processAnchor [] dl pathRel baseDir (Node.anchor href) st =
      (Node.anchor href, st) := by
  simp only [processAnchor, resolveAtt_nil]
  split <;> simp

theorem processRi_untouched {σ : Type} (m : AttMap)
    (dl : Att → σ → Option String × σ) (pathRel : String → String → String)
    (baseDir : String) (riF fA : Option String)
    (hf : effectiveFilename riF fA = none) (st : σ) :
    processRi m dl pathRel baseDir (Node.ri riF fA) st = (Node.ri riF fA, st) := by
  simp only [processRi, hf]

theorem processRi_placeholder {σ : Type} (m : AttMap)
    (dl : Att → σ → Option String × σ) (pathRel : String → String → String)
    (baseDir : String) (riF fA : Option String) (f : String)
    (hf : effectiveFilename riF fA = some f)
    (hfail : resolveAtt m f = none ∨
      ∃ att, resolveAtt m f = some att ∧ ∀ s : σ, (dl att s).1 = none)
    (st : σ) :
    (processRi m dl pathRel baseDir (Node.ri riF fA) st).1 =
      Node.text ("[Attachment: " ++ f ++ "]") := by
  simp only [processRi, hf]
  rcases hfail with h | ⟨att, hres, hdl⟩
  · simp [h]
  · simp [hres, hdl st]

/-! ## Claim theorems -/

/-- **C1, counterexample.**  The claim says every recognized reference —
including image sources — that matches no attachment is replaced by a
placeholder and never left as the remote URL.  But with an empty Attachment
Map (so the image's filename `pic.png` matches nothing) the rewriter leaves
the `img` element untouched: the original remote URL survives in the output
and no placeholder is produced. -/
theorem c1_remote_url_survives :
    resolveAtt (attMapOfListing (Except.ok [])) "pic.png" = none ∧
    urlFilename "/download/attachments/123/pic.png" = "pic.png" ∧
    rewriteAndDownloadAttachments (σ := Unit) (fun _ s => (none, s))
        (fun p _ => p) "out" (Except.ok [])
        [Node.img "/download/attachments/123/pic.png"] () =
      ([Node.img "/download/attachments/123/pic.png"], ()) :=
  ⟨rfl, rfl, rfl⟩

/-- **C1, amended.**  For every *structured inline* reference carrying a
filename that either matches no entry of the Attachment Map or whose
download fails, the rewritten markup replaces the element by the
placeholder `[Attachment: <filename>]` — the reference never survives.
(Image and link references, by contrast, are left unchanged in those
cases, as the counterexample shows.) -/
theorem c1_structured_placeholder {σ : Type}
    (dl : Att → σ → Option String × σ) (pathRel : String → String → String)
    (baseDir : String) (listing : Except String (List Att))
    (riF fA : Option String) (f : String)
    (hf : effectiveFilename riF fA = some f)
    (hfail : resolveAtt (attMapOfListing listing) f = none ∨
      ∃ att, resolveAtt (attMapOfListing listing) f = some att ∧
        ∀ s : σ, (dl att s).1 = none)
    (pre suf : List Node) (st : σ) :
    ∃ outPre outSuf st',
      rewriteAndDownloadAttachments dl pathRel baseDir listing
          (pre ++ Node.ri riF fA :: suf) st =
        (outPre ++ Node.text ("[Attachment: " ++ f ++ "]") :: outSuf, st') ∧
      outPre.length = pre.length := by
  unfold rewriteAndDownloadAttachments
  exact rewriteWithMap_decomp _ dl pathRel baseDir _ _ _ _
    (fun s => processRi_placeholder _ dl pathRel baseDir riF fA f hf hfail s)
    (fun s => by rw [processImg_text]) (fun s => by rw [processAnchor_text])
    pre suf st

/-- Witness for `c1_structured_placeholder` at a concrete input. -/
theorem c1_structured_placeholder_witness :
    ∃ outPre outSuf st',
      rewriteAndDownloadAttachments (σ := Unit) (fun _ s => (none, s))
          (fun p _ => p) "out" (Except.ok [])
          ([] ++ Node.ri (some "pic.png") none :: []) () =
        (outPre ++ Node.text ("[Attachment: " ++ "pic.png" ++ "]") :: outSuf, st') ∧
      outPre.length = List.length ([] : List Node) :=
  c1_structured_placeholder (σ := Unit) (fun _ s => (none, s)) (fun p _ => p)
    "out" (Except.ok []) (some "pic.png") none "pic.png" rfl (Or.inl rfl) [] [] ()

/-- First-hit characterization of `List.findSome?`: when some element
produces a value, the result comes from the first such element. -/
theorem findSome?_first_hit {α β : Type} (g : α → Option β) :
    ∀ l : List α, (∃ v ∈ l, (g v).isSome) →
      ∃ pre v suf, l = pre ++ v :: suf ∧ (∀ u ∈ pre, g u = none) ∧
        l.findSome? g = g v ∧ (g v).isSome := by
  intro l
  induction l with
  | nil => rintro ⟨v, hv, _⟩; exact absurd hv (List.not_mem_nil v)
  | cons a l ih =>
    rintro ⟨v, hv, hsome⟩
    cases hga : g a with
    | some b =>
      exact ⟨[], a, l, rfl, by simp, by simp [List.findSome?, hga], by simp [hga]⟩
    | none =>
      have hvl : v ∈ l := by
        rcases List.mem_cons.1 hv with h | h
        · subst h; rw [hga] at hsome; simp at hsome
        · exact h
      obtain ⟨pre, v', suf, hl, hpre, hfind, hsome'⟩ := ih ⟨v, hvl, hsome⟩
      refine ⟨a :: pre, v', suf, by simp [hl], ?_, ?_, hsome'⟩
      · intro u hu
        rcases List.mem_cons.1 hu with h | h
        · subst h; exact hga
        · exact hpre u h
      · simpa [List.findSome?, hga] using hfind

/-- **C2, counterexample.**  The claim's variant order (raw, decoded,
space→underscore, underscore→space, space→percent, percent→space) differs
from the code's (raw, decoded, percent→space, underscore→space,
space→underscore, space→percent), and the difference is observable: with
listed attachments titled `a b c` and `a_b_c`, the reference filename
`a b_c` resolves to the `a b c` record under the code's order but to the
`a_b_c` record under the claim's order. -/
theorem c2_variant_order_differs :
    resolveAtt
        (buildAttMap
          [⟨some "idA", some "a b c", some "/d/a", none⟩,
           ⟨some "idB", some "a_b_c", some "/d/b", none⟩]) "a b_c" =
      some ⟨some "idA", some "a b c", some "/d/a", none⟩ ∧
    resolveAttSpec
        (buildAttMap
          [⟨some "idA", some "a b c", some "/d/a", none⟩,
           ⟨some "idB", some "a_b_c", some "/d/b", none⟩]) "a b_c" =
      some ⟨some "idB", some "a_b_c", some "/d/b", none⟩ ∧
    (⟨some "idA", some "a b c", some "/d/a", none⟩ : Att) ≠
      ⟨some "idB", some "a_b_c", some "/d/b", none⟩ := by
  refine ⟨by decide, by decide, by decide⟩

/-- **C2, amended.**  The Resolver builds the variant list in the order:
raw value, URL-decoded, percent-encoding (`%20`) replaced by spaces,
underscores replaced by spaces, spaces replaced by underscores, spaces
replaced by percent-encoding; it looks each variant up in the Attachment
Map in that fixed order and, whenever any variant is a key, resolves the
reference to the record of the first variant that is a key. -/
theorem c2_first_variant_hit (m : AttMap) (f : String)
    (h : ∃ v ∈ filenameVariants f, (mapLookup m v).isSome) :
    filenameVariants f =
      [f, unquote f, pyReplace f "%20" " ", pyReplace f "_" " ",
       pyReplace f " " "_", pyReplace f " " "%20"] ∧
    ∃ pre v suf, filenameVariants f = pre ++ v :: suf ∧
      (∀ u ∈ pre, mapLookup m u = none) ∧
      resolveAtt m f = mapLookup m v ∧ (mapLookup m v).isSome :=
  ⟨rfl, findSome?_first_hit (mapLookup m) (filenameVariants f) h⟩

/-- Witness for `c2_first_variant_hit` at a concrete input. -/
theorem c2_first_variant_hit_witness :
    filenameVariants "a%20b" =
      ["a%20b", unquote "a%20b", pyReplace "a%20b" "%20" " ",
       pyReplace "a%20b" "_" " ", pyReplace "a%20b" " " "_",
       pyReplace "a%20b" " " "%20"] ∧
    ∃ pre v suf, filenameVariants "a%20b" = pre ++ v :: suf ∧
      (∀ u ∈ pre,
        mapLookup (buildAttMap [⟨some "1", some "a b", some "/d/f", none⟩]) u =
          none) ∧
      resolveAtt (buildAttMap [⟨some "1", some "a b", some "/d/f", none⟩])
          "a%20b" =
        mapLookup (buildAttMap [⟨some "1", some "a b", some "/d/f", none⟩]) v ∧
      (mapLookup (buildAttMap [⟨some "1", some "a b", some "/d/f", none⟩])
          v).isSome :=
  c2_first_variant_hit (buildAttMap [⟨some "1", some "a b", some "/d/f", none⟩])
    "a%20b" ⟨"a b", by decide, by decide⟩

/-- **C6, counterexample.**  The claim says that on a listing error every
inline reference falls back to a placeholder.  But under a listing error an
image reference (one of the recognized reference shapes) is left untouched,
remote URL and all — only structured inline references become
placeholders. -/
theorem c6_img_survives_listing_error :
    rewriteAndDownloadAttachments (σ := Unit) (fun _ s => (none, s))
        (fun p _ => p) "out" (Except.error "connection reset")
        [Node.img "/download/attachments/1/pic.png"] () =
      ([Node.img "/download/attachments/1/pic.png"], ()) := rfl

/-- **C6, amended.**  A listing error is not propagated: the rewriter
behaves exactly as with an empty Attachment Map and the conversion
completes; under it every structured inline reference carrying a filename
falls back to the `[Attachment: <filename>]` placeholder, while image and
link references are left unchanged (and trigger no download). -/
theorem c6_listing_error_degrades {σ : Type}
    (dl : Att → σ → Option String × σ) (pathRel : String → String → String)
    (baseDir : String) (err : String) :
    (∀ (nodes : List Node) (st : σ),
      rewriteAndDownloadAttachments dl pathRel baseDir (Except.error err) nodes st =
        rewriteAndDownloadAttachments dl pathRel baseDir (Except.ok []) nodes st) ∧
    (∀ (riF fA : Option String) (f : String) (pre suf : List Node) (st : σ),
      effectiveFilename riF fA = some f →
      ∃ outPre outSuf st',
        rewriteAndDownloadAttachments dl pathRel baseDir (Except.error err)
            (pre ++ Node.ri riF fA :: suf) st =
          (outPre ++ Node.text ("[Attachment: " ++ f ++ "]") :: outSuf, st') ∧
        outPre.length = pre.length) ∧
    (∀ (src : String) (pre suf : List Node) (st : σ),
      ∃ outPre outSuf st',
        rewriteAndDownloadAttachments dl pathRel baseDir (Except.error err)
            (pre ++ Node.img src :: suf) st =
          (outPre ++ Node.img src :: outSuf, st') ∧
        rewriteAndDownloadAttachments dl pathRel baseDir (Except.error err)
            (pre ++ suf) st = (outPre ++ outSuf, st') ∧
        outPre.length = pre.length) ∧
    (∀ (href : String) (pre suf : List Node) (st : σ),
      ∃ outPre outSuf st',
        rewriteAndDownloadAttachments dl pathRel baseDir (Except.error err)
            (pre ++ Node.anchor href :: suf) st =
          (outPre ++ Node.anchor href :: outSuf, st') ∧
        rewriteAndDownloadAttachments dl pathRel baseDir (Except.error err)
            (pre ++ suf) st = (outPre ++ outSuf, st') ∧
        outPre.length = pre.length) := by
  refine ⟨fun nodes st => rfl, ?_, ?_, ?_⟩
  · intro riF fA f pre suf st hf
    exact rewriteWithMap_decomp [] dl pathRel baseDir _ _ _ _
      (fun s => processRi_placeholder [] dl pathRel baseDir riF fA f hf
        (Or.inl (resolveAtt_nil f)) s)
      (fun s => by rw [processImg_text]) (fun s => by rw [processAnchor_text])
      pre suf st
  · intro src pre suf st
    exact rewriteWithMap_skip [] dl pathRel baseDir _ (fun s => rfl)
      (fun s => processImg_empty_map dl pathRel baseDir src s) (fun s => rfl)
      pre suf st
  · intro href pre suf st
    exact rewriteWithMap_skip [] dl pathRel baseDir _ (fun s => rfl) (fun s => rfl)
      (fun s => processAnchor_empty_map dl pathRel baseDir href s) pre suf st

/-- Witness for `c6_listing_error_degrades` at a concrete input. -/
theorem c6_listing_error_degrades_witness :
    ∃ outPre outSuf st',
      rewriteAndDownloadAttachments (σ := Unit) (fun _ s => (none, s))
          (fun p _ => p) "out" (Except.error "connection reset")
          ([] ++ Node.ri (some "f.png") none :: []) () =
        (outPre ++ Node.text ("[Attachment: " ++ "f.png" ++ "]") :: outSuf, st') ∧
      outPre.length = List.length ([] : List Node) :=
  (c6_listing_error_degrades (σ := Unit) (fun _ s => (none, s)) (fun p _ => p)
    "out" "connection reset").2.1 (some "f.png") none "f.png" [] [] () rfl

/-- **C10.**  A structured inline attachment element carrying no (truthy)
filename attribute is inert: it appears in the rewritten markup exactly as
in the input, and the rewrite of the document with the element is the
rewrite of the document without it — same surrounding output, same final
download state — so no placeholder is substituted and no download is
attempted for it. -/
theorem c10_filenameless_tag_inert {σ : Type}
    (dl : Att → σ → Option String × σ) (pathRel : String → String → String)
    (baseDir : String) (listing : Except String (List Att))
    (riF fA : Option String) (hf : effectiveFilename riF fA = none)
    (pre suf : List Node) (st : σ) :
    ∃ outPre outSuf st',
      rewriteAndDownloadAttachments dl pathRel baseDir listing
          (pre ++ Node.ri riF fA :: suf) st =
        (outPre ++ Node.ri riF fA :: outSuf, st') ∧
      rewriteAndDownloadAttachments dl pathRel baseDir listing (pre ++ suf) st =
        (outPre ++ outSuf, st') ∧
      outPre.length = pre.length := by
  unfold rewriteAndDownloadAttachments
  exact rewriteWithMap_skip _ dl pathRel baseDir _
    (fun s => processRi_untouched _ dl pathRel baseDir riF fA hf s)
    (fun s => rfl) (fun s => rfl) pre suf st

/-- Witness for `c10_filenameless_tag_inert` at a concrete input. -/
theorem c10_filenameless_tag_inert_witness :
    ∃ outPre outSuf st',
      rewriteAndDownloadAttachments (σ := Unit) (fun _ s => (none, s))
          (fun p _ => p) "out"
          (Except.ok [⟨some "1", some "f.png", some "/d/f", none⟩])
          ([Node.text "hello"] ++ Node.ri none none :: []) () =
        (outPre ++ Node.ri none none :: outSuf, st') ∧
      rewriteAndDownloadAttachments (σ := Unit) (fun _ s => (none, s))
          (fun p _ => p) "out"
          (Except.ok [⟨some "1", some "f.png", some "/d/f", none⟩])
          ([Node.text "hello"] ++ []) () = (outPre ++ outSuf, st') ∧
      outPre.length = [Node.text "hello"].length :=
  c10_filenameless_tag_inert (σ := Unit) (fun _ s => (none, s)) (fun p _ => p)
    "out" (Except.ok [⟨some "1", some "f.png", some "/d/f", none⟩]) none none rfl
    [Node.text "hello"] [] ()

/-- The alternative-URL loop either fails leaving the filesystem untouched
or succeeds writing exactly the target path. -/
theorem tryAltUrls_outcome (env : DlEnv) (outPath : String) (fs : FsState) :
    ∀ urls : List String,
      ((tryAltUrls env outPath fs urls).1 = none ∧
        (tryAltUrls env outPath fs urls).2.1 = fs) ∨
      ((tryAltUrls env outPath fs urls).1 = some outPath ∧
        (tryAltUrls env outPath fs urls).2.1 = outPath :: fs) := by
  intro urls
  induction urls with
  | nil => exact Or.inl ⟨rfl, rfl⟩
  | cons u rest ih =>
    simp only [tryAltUrls]
    cases env.get u with
    | ok r =>
      dsimp only
      split
      · exact ih
      · exact Or.inr ⟨rfl, rfl⟩
    | error e => exact ih

/-- Under an environment whose every successful response is HTML, the
alternative-URL loop tries every URL, writes nothing and fails. -/
theorem tryAltUrls_all_html (env : DlEnv) (outPath : String) (fs : FsState)
    (hhtml : ∀ u r, env.get u = .ok r →
      containsSubstr (lowerStr r.contentType) "text/html" = true) :
    ∀ urls : List String, tryAltUrls env outPath fs urls = (none, fs, urls) := by
  intro urls
  induction urls with
  | nil => rfl
  | cons u rest ih =>
    simp only [tryAltUrls]
    cases hg : env.get u with
    | ok r => simp [hhtml u r hg, ih]
    | error e => simp [ih]

/-- **C7.**  The Downloader never raises: for every attachment record,
target directory, page id and filesystem, and every network behaviour, the
result is `Except.ok` — either an absence signal or a path, and a returned
path is the pre-existing file or the one file just written.  (An
`Except.error` result, the image of a propagated Python exception, is
impossible.) -/
theorem c7_downloader_total (env : DlEnv) (att : Att) (outDir : String)
    (pageId? : Option String) (fs : FsState) :
    ∃ o fs' tr, downloadAttachment env att outDir pageId? fs = .ok (o, fs', tr) ∧
      (∀ p, o = some p → fs.contains p = true ∨ fs' = p :: fs) := by
  unfold downloadAttachment
  cases truthy? (deriveDownloadLink att pageId?) with
  | none => exact ⟨none, fs, [], rfl, by simp⟩
  | some dlink =>
    dsimp only
    split
    · next hex =>
      exact ⟨_, fs, [], rfl, by intro p hp; cases hp; exact Or.inl hex⟩
    · next hex =>
      cases env.get (resolveDownloadUrl env.baseUrl dlink) with
      | ok r =>
        dsimp only
        split
        · exact ⟨none, fs, _, rfl, by simp⟩
        · exact ⟨_, _, _, rfl, by intro p hp; cases hp; exact Or.inr rfl⟩
      | error e =>
        dsimp only
        cases truthy? pageId? with
        | none => exact ⟨none, fs, _, rfl, by simp⟩
        | some pid =>
          cases truthy? att.id? with
          | none => exact ⟨none, fs, _, rfl, by simp⟩
          | some aid =>
            dsimp only
            rcases tryAltUrls_outcome env
                (outDir ++ "/" ++
                  derivedFilename att (resolveDownloadUrl env.baseUrl dlink)) fs
                [env.baseUrl ++ "/download/attachments/" ++ pid ++ "/" ++
                   derivedFilename att (resolveDownloadUrl env.baseUrl dlink),
                 env.baseUrl ++ "/download/attachments/" ++ aid ++ "/" ++
                   derivedFilename att (resolveDownloadUrl env.baseUrl dlink),
                 wikiBase env.baseUrl ++ "/download/attachments/" ++ pid ++ "/" ++
                   derivedFilename att (resolveDownloadUrl env.baseUrl dlink)]
              with ⟨h1, h2⟩ | ⟨h1, h2⟩
            · exact ⟨_, _, _, rfl, by intro p hp; rw [h1] at hp; cases hp⟩
            · exact ⟨_, _, _, rfl, by
                intro p hp; rw [h1] at hp; cases hp; exact Or.inr h2⟩

/-- Witness for `c7_downloader_total` at a concrete input. -/
theorem c7_downloader_total_witness :
    ∃ o fs' tr,
      downloadAttachment ⟨"https://x.y/wiki", fun _ => Except.error "offline"⟩
          ⟨some "9", some "f.png", some "/d/f.png", none⟩ "out" (some "1") [] =
        .ok (o, fs', tr) ∧
      (∀ p, o = some p → List.contains ([] : FsState) p = true ∨ fs' = p :: []) :=
  c7_downloader_total ⟨"https://x.y/wiki", fun _ => Except.error "offline"⟩
    ⟨some "9", some "f.png", some "/d/f.png", none⟩ "out" (some "1") []

/-- **C3.**  A response whose declared content type is HTML is never
written and is reported as a failure: in any environment where every
successful response (on the primary URL or any alternative URL) declares
an HTML content type, the Downloader leaves the filesystem unchanged, and
whenever it issued any request at all the outcome is the absence signal.
(The only `some` outcome without a request is the idempotent
already-present skip, which obtains no response.) -/
theorem c3_html_guard (env : DlEnv) (att : Att) (outDir : String)
    (pageId? : Option String) (fs : FsState)
    (hhtml : ∀ u r, env.get u = .ok r →
      containsSubstr (lowerStr r.contentType) "text/html" = true) :
    ∃ o tr, downloadAttachment env att outDir pageId? fs = .ok (o, fs, tr) ∧
      (tr ≠ [] → o = none) := by
  unfold downloadAttachment
  cases truthy? (deriveDownloadLink att pageId?) with
  | none => exact ⟨none, [], rfl, fun _ => rfl⟩
  | some dlink =>
    dsimp only
    split
    · exact ⟨_, [], rfl, fun h => absurd rfl h⟩
    · cases hg : env.get (resolveDownloadUrl env.baseUrl dlink) with
      | ok r =>
        dsimp only
        rw [if_pos (hhtml _ r hg)]
        exact ⟨none, _, rfl, fun _ => rfl⟩
      | error e =>
        dsimp only
        cases truthy? pageId? with
        | none => exact ⟨none, _, rfl, fun _ => rfl⟩
        | some pid =>
          cases truthy? att.id? with
          | none => exact ⟨none, _, rfl, fun _ => rfl⟩
          | some aid =>
            dsimp only
            rw [tryAltUrls_all_html env _ fs hhtml]
            exact ⟨none, _, rfl, fun _ => rfl⟩

/-- Witness for `c3_html_guard` at a concrete input. -/
theorem c3_html_guard_witness :
    ∃ o tr,
      downloadAttachment
          ⟨"https://x.y/wiki", fun _ => Except.ok ⟨"text/html; charset=utf-8"⟩⟩
          ⟨some "9", some "f.png", some "/d/f.png", none⟩ "out" (some "1") [] =
        .ok (o, [], tr) ∧ (tr ≠ [] → o = none) :=
  c3_html_guard ⟨"https://x.y/wiki", fun _ => Except.ok ⟨"text/html; charset=utf-8"⟩⟩
    ⟨some "9", some "f.png", some "/d/f.png", none⟩ "out" (some "1") []
    (fun u r h => by cases h; decide)

/-- **C4.**  For every attachment record with a (truthy) derivable download
locator — every record of the specification's data model — if the file
with the derived sanitized filename already exists in the target directory,
the Downloader issues no request, writes nothing, and returns the existing
file's path. -/
theorem c4_existing_file_skips (env : DlEnv) (att : Att) (outDir : String)
    (pageId? : Option String) (fs : FsState) (dlink : String)
    (hlink : truthy? (deriveDownloadLink att pageId?) = some dlink)
    (hex : fs.contains
      (outDir ++ "/" ++
        derivedFilename att (resolveDownloadUrl env.baseUrl dlink)) = true) :
    downloadAttachment env att outDir pageId? fs =
      .ok (some (outDir ++ "/" ++
        derivedFilename att (resolveDownloadUrl env.baseUrl dlink)), fs, []) := by
  unfold downloadAttachment
  rw [hlink]
  dsimp only
  rw [if_pos hex]

/-- Witness for `c4_existing_file_skips` at a concrete input. -/
theorem c4_existing_file_skips_witness :
    downloadAttachment ⟨"https://x.y/wiki", fun _ => Except.error "offline"⟩
        ⟨some "9", some "f.png", some "/d/f.png", none⟩ "out" (some "1")
        ["out/f.png"] =
      .ok (some ("out" ++ "/" ++
        derivedFilename ⟨some "9", some "f.png", some "/d/f.png", none⟩
          (resolveDownloadUrl "https://x.y/wiki" "/d/f.png")), ["out/f.png"], []) :=
  c4_existing_file_skips ⟨"https://x.y/wiki", fun _ => Except.error "offline"⟩
    ⟨some "9", some "f.png", some "/d/f.png", none⟩ "out" (some "1")
    ["out/f.png"] "/d/f.png" (by decide) (by decide)

/-- The pagination loop over a response sequence whose every non-final page
carries a truthy next link and whose final page carries none accumulates
all pages' results in order. -/
theorem listAttachmentsLoop_concat (base : String) :
    ∀ (init : List ListingResponse) (last : ListingResponse) (url : String),
      (∀ r ∈ init, (truthy? r.next?).isSome = true) →
      truthy? last.next? = none →
      (listAttachmentsLoop base url (init ++ [last])).1 =
        ((init ++ [last]).map ListingResponse.results).flatten := by
  intro init
  induction init with
  | nil =>
    intro last url _ hlast
    simp [listAttachmentsLoop, hlast]
  | cons r rs ih =>
    intro last url hinit hlast
    have hr : (truthy? r.next?).isSome = true := hinit r (by simp)
    rcases hn : truthy? r.next? with _ | n
    · rw [hn] at hr; simp at hr
    · simp only [List.cons_append, listAttachmentsLoop, hn]
      rw [List.append_eq, ih last _ (fun x hx => hinit x (by simp [hx])) hlast]
      simp

/-- When every page carries no results, the loop accumulates nothing. -/
theorem listAttachmentsLoop_empty (base : String) :
    ∀ (resps : List ListingResponse) (url : String),
      (∀ r ∈ resps, r.results = []) →
      (listAttachmentsLoop base url resps).1 = [] := by
  intro resps
  induction resps with
  | nil => intro url _; rfl
  | cons r rs ih =>
    intro url h
    have hr : r.results = [] := h r (by simp)
    rcases hn : truthy? r.next? with _ | n
    · simp [listAttachmentsLoop, hn, hr]
    · simp [listAttachmentsLoop, hn, hr, ih _ (fun x hx => h x (by simp [hx]))]

/-- **C5.**  The Attachment Lister follows next links until a response
carries none (the break fires on a falsy next link, so absent and empty
count as none) and returns the concatenation of all pages' results in
order; in particular, for a first response carrying a next link and a
second carrying none it returns the first page's results followed by the
second's (requesting the listing endpoint and then the next link resolved
against the base URL), and it returns the empty sequence when every page
is empty. -/
theorem c5_pagination (base pid : String) :
    (∀ (init : List ListingResponse) (last : ListingResponse),
      (∀ r ∈ init, (truthy? r.next?).isSome = true) →
      truthy? last.next? = none →
      (listAttachmentsForPage base pid (init ++ [last])).1 =
        ((init ++ [last]).map ListingResponse.results).flatten) ∧
    (∀ (r1 r2 : ListingResponse) (n : String),
      truthy? r1.next? = some n → truthy? r2.next? = none →
      listAttachmentsForPage base pid [r1, r2] =
        (r1.results ++ r2.results,
         [attachmentListUrl base pid, urljoinModel base n])) ∧
    (∀ resps : List ListingResponse, (∀ r ∈ resps, r.results = []) →
      (listAttachmentsForPage base pid resps).1 = []) := by
  refine ⟨fun init last h1 h2 => listAttachmentsLoop_concat base init last _ h1 h2,
    ?_, fun resps h => listAttachmentsLoop_empty base resps _ h⟩
  intro r1 r2 n h1 h2
  simp [listAttachmentsForPage, listAttachmentsLoop, h1, h2]

/-- Witness for `c5_pagination` at a concrete input. -/
theorem c5_pagination_witness :
    listAttachmentsForPage "https://x.y" "123"
        [⟨[⟨some "1", some "a.png", some "/d/a", none⟩], some "/next?page=2"⟩,
         ⟨[⟨some "2", some "b.png", some "/d/b", none⟩], none⟩] =
      ([⟨some "1", some "a.png", some "/d/a", none⟩,
        ⟨some "2", some "b.png", some "/d/b", none⟩],
       [attachmentListUrl "https://x.y" "123",
        urljoinModel "https://x.y" "/next?page=2"]) :=
  (c5_pagination "https://x.y" "123").2.1
    ⟨[⟨some "1", some "a.png", some "/d/a", none⟩], some "/next?page=2"⟩
    ⟨[⟨some "2", some "b.png", some "/d/b", none⟩], none⟩ "/next?page=2" rfl rfl

/-- **C8, counterexample.**  The claim says the Orchestrator re-fetches the
page by the identifier found via a (title, space) search before extracting
the body markup.  It does not: with a search returning a page with id
`42`, the fetch phase issues exactly the one search request — the by-id
request for `42` is never made — and extraction proceeds directly from the
search result. -/
theorem c8_no_refetch_after_search :
    (fetchAndSaveFetchPhase
        ⟨true, "https://x.y", fun _ => Except.error "unused",
         fun _ => Except.ok [⟨some "42", some "T", some "<p>x</p>"⟩]⟩
        none (some "T") (some "S")).2 =
      [findPageByTitleReq "https://x.y" "T" "S"] ∧
    (fetchAndSaveFetchPhase
        ⟨true, "https://x.y", fun _ => Except.error "unused",
         fun _ => Except.ok [⟨some "42", some "T", some "<p>x</p>"⟩]⟩
        none (some "T") (some "S")).1 =
      Except.ok (⟨some "42", some "T", some "<p>x</p>"⟩, "T", "<p>x</p>") ∧
    getPageByIdReq "https://x.y" "42" ∉
      (fetchAndSaveFetchPhase
        ⟨true, "https://x.y", fun _ => Except.error "unused",
         fun _ => Except.ok [⟨some "42", some "T", some "<p>x</p>"⟩]⟩
        none (some "T") (some "S")).2 :=
  ⟨rfl, rfl, by decide⟩

/-- **C8, amended.**  When the Orchestrator resolves a page via a (title,
space) search it does not re-fetch by id: it extracts the body markup from
the search result directly, issuing only the search request.  Both entry
modes still proceed from the same Page shape because the search request
carries exactly the same `expand` parameter
(`body.storage,version,ancestors`) as the by-id fetch.  (Only the legacy
duplicate module at the repository root re-fetches by id.) -/
theorem c8_search_same_shape (env : OrchEnv) (titleArg? space? : Option String)
    (t sp : String) (ht : truthy? titleArg? = some t)
    (hsp : truthy? space? = some sp) (hsession : env.sessionInitialized = true)
    (results : List PageData) (page : PageData)
    (hs : env.search (findPageByTitleReq env.confluenceUrl t sp) =
      Except.ok results)
    (hhead : results.head? = some page) :
    fetchAndSaveFetchPhase env none titleArg? space? =
      (extractPhase page, [findPageByTitleReq env.confluenceUrl t sp]) ∧
    ∀ b pid : String,
      expandParam (findPageByTitleReq b t sp) = expandParam (getPageByIdReq b pid) := by
  constructor
  · unfold fetchAndSaveFetchPhase
    rw [hsession]
    simp only [Bool.true_eq_false, if_false]
    rw [show truthy? (none : Option String) = none from rfl, ht, hsp]
    dsimp only
    rw [hs]
    dsimp only
    rw [hhead]
  · intro b pid
    rfl

/-- Witness for `c8_search_same_shape` at a concrete input. -/
theorem c8_search_same_shape_witness :
    fetchAndSaveFetchPhase
        ⟨true, "https://x.y", fun _ => Except.error "unused",
         fun _ => Except.ok [⟨some "42", some "T", some "<p>x</p>"⟩]⟩
        none (some "T") (some "S") =
      (extractPhase ⟨some "42", some "T", some "<p>x</p>"⟩,
       [findPageByTitleReq "https://x.y" "T" "S"]) ∧
    ∀ b pid : String,
      expandParam (findPageByTitleReq b "T" "S") =
        expandParam (getPageByIdReq b pid) :=
  c8_search_same_shape
    ⟨true, "https://x.y", fun _ => Except.error "unused",
     fun _ => Except.ok [⟨some "42", some "T", some "<p>x</p>"⟩]⟩
    (some "T") (some "S") "T" "S" rfl rfl rfl
    [⟨some "42", some "T", some "<p>x</p>"⟩] ⟨some "42", some "T", some "<p>x</p>"⟩
    rfl rfl

/-- **C9.**  Calling the fetch operation with no initialized session fails
with the configuration-class error `credentialsNotInitialized` and issues
no request at all. -/
theorem c9_session_guard (env : OrchEnv) (pageId? titleArg? space? : Option String)
    (h : env.sessionInitialized = false) :
    fetchAndSaveFetchPhase env pageId? titleArg? space? =
      (Except.error FetchErr.credentialsNotInitialized, []) := by
  unfold fetchAndSaveFetchPhase
  rw [h]
  rfl

/-- Witness for `c9_session_guard` at a concrete input. -/
theorem c9_session_guard_witness :
    fetchAndSaveFetchPhase
        ⟨false, "https://x.y", fun _ => Except.error "unused",
         fun _ => Except.error "unused"⟩ (some "42") none none =
      (Except.error FetchErr.credentialsNotInitialized, []) :=
  c9_session_guard
    ⟨false, "https://x.y", fun _ => Except.error "unused",
     fun _ => Except.error "unused"⟩ (some "42") none none rfl
